import Mathlib

/-
  Verification development for the knowledge-graph extraction pipeline
  (chunked extraction with resumable progress tracking).

  The Python sources are embedded shallowly:
  * JSON values are modelled by the inductive type `JVal`;
  * the per-chunk model call is abstracted by `ModelOutcome` (the call can
    raise, return undecodable text, or return a decoded JSON value);
  * `process_chunks`, `read_book_chunks`, `load_data`, `save_data`,
    `flatten_properties` and the operator-console run loop are translated
    function by function from `src/extract.py` and `src/populate.py`.
-/

namespace KG

/-- A JSON value as produced by Python's `json.loads`: null, booleans,
numbers (modelled as integers; no claim depends on float arithmetic),
strings, arrays and objects (association lists in document order). -/
inductive JVal where
  | null : JVal
  | bool : Bool → JVal
  | num : Int → JVal
  | str : String → JVal
  | arr : List JVal → JVal
  | obj : List (String × JVal) → JVal

/-- Dictionary lookup, modelling Python's `data[key]` / `key in data` on a
dict decoded from JSON (keys of such a dict are distinct, so first-match
lookup agrees with Python's dict). -/
def jlookup (k : String) : List (String × JVal) → Option JVal
  | [] => none
  | (k2, v) :: rest => if k = k2 then some v else jlookup k rest

/-- The shape test of `process_chunks` in `src/extract.py`:
`isinstance(data, dict) and "graph" in data and isinstance(data["graph"], list)`;
returns the list under `"graph"` when the test passes. -/
def graph_field : JVal → Option (List JVal)
  | JVal.obj kvs =>
      match jlookup "graph" kvs with
      | some (JVal.arr xs) => some xs
      | _ => none
  | _ => none

/-- Everything that can come out of one `model.generate_content` call for a
chunk, seen from the decision structure of `process_chunks`: the call (or
anything before the shape test) raises, the stripped response text is not
decodable JSON, or it decodes to the JSON value `d`. -/
inductive ModelOutcome where
  | exn : ModelOutcome
  | notJson : ModelOutcome
  | json : JVal → ModelOutcome

/-- Result triple of `process_chunks` in `src/extract.py`
(`newly_extracted_triplets, successfully_processed_indices, failed_indices`). -/
structure BatchResult where
  newly_extracted_triplets : List JVal
  successfully_processed_indices : List Nat
  failed_indices : List Nat

/-- `process_chunks` from `src/extract.py` (lines 105-130): iterate over the
chunks in list order; on a decoded response whose top level is a dict with a
`"graph"` key holding a list, extend the accumulated triplets with that list
and mark the index succeeded; on a wrong shape, a JSON decode error or any
exception, mark the index failed and continue with the next chunk.  The model
call is precomposed: each chunk arrives with its `ModelOutcome`. -/
def process_chunks : List (Nat × ModelOutcome) → BatchResult
  | [] => ⟨[], [], []⟩
  | (index, outcome) :: rest =>
      let r := process_chunks rest
      match outcome with
      | ModelOutcome.json d =>
          match graph_field d with
          | some chunk_triplets =>
              ⟨chunk_triplets ++ r.newly_extracted_triplets,
               index :: r.successfully_processed_indices,
               r.failed_indices⟩
          | none =>
              ⟨r.newly_extracted_triplets,
               r.successfully_processed_indices,
               index :: r.failed_indices⟩
      | _ =>
          ⟨r.newly_extracted_triplets,
           r.successfully_processed_indices,
           index :: r.failed_indices⟩

/-- An outcome counts as a per-chunk failure exactly when `process_chunks`
appends the index to `failed_indices`: exception, undecodable JSON, or a
decoded value failing the `"graph"`-shape test. -/
def isFailureOutcome : ModelOutcome → Bool
  | ModelOutcome.json d => (graph_field d).isNone
  | _ => true

/-- The graph list contributed by one chunk entry when it succeeds. -/
def succGraph (p : Nat × ModelOutcome) : Option (List JVal) :=
  match p.2 with
  | ModelOutcome.json d => graph_field d
  | _ => none

/-- Processing parameters from `src/extract.py` (lines 17-18). -/
def CHUNK_SIZE : Nat := 10000

/-- Chunk overlap parameter from `src/extract.py`. -/
def CHUNK_OVERLAP : Nat := 500

/-- The chunking loop of `read_book_chunks` (`src/extract.py`, lines 74-80):
`start = 0; while start < len(text): chunks.append(text[start:start+chunk_size]);
start += chunk_size - overlap`, started here at an arbitrary offset.  Text is a
list of characters; Python's slice `text[start:start+size]` is
`(text.drop start).take size`.  The guard `overlap < size` encodes the
termination precondition of the Python loop (with `overlap ≥ size` the Python
loop never advances and does not terminate, so no list of chunks is produced). -/
def chunk_loop (text : List Char) (size overlap : Nat) (start : Nat) :
    List (List Char) :=
  if h : overlap < size ∧ start < text.length then
    (text.drop start).take size ::
      chunk_loop text size overlap (start + (size - overlap))
  else []
termination_by text.length - start
decreasing_by
  have hs : 0 < size - overlap := Nat.sub_pos_of_lt h.1
  omega

/-- What reading the source text file can do, seen from `read_book_chunks`:
the file is read and decoded to `text`, the file does not exist
(`FileNotFoundError`), or its bytes cannot be decoded as UTF-8
(`UnicodeDecodeError`). -/
inductive ReadOutcome where
  | ok : List Char → ReadOutcome
  | notFound : ReadOutcome
  | decodeError : ReadOutcome

/-- The uncaught Python exceptions of `read_book_chunks`. -/
inductive ChunkerError where
  | unicodeDecodeError : ChunkerError
deriving DecidableEq

/-- `read_book_chunks` from `src/extract.py` (lines 67-80): the `try` block
reads and decodes the file; only `FileNotFoundError` is caught (returning the
empty list); a decode failure propagates out of the function; on success the
text is chunked by the loop above. -/
def read_book_chunks (r : ReadOutcome) (chunk_size overlap : Nat) :
    Except ChunkerError (List (List Char)) :=
  match r with
  | ReadOutcome.ok text => Except.ok (chunk_loop text chunk_size overlap 0)
  | ReadOutcome.notFound => Except.ok []
  | ReadOutcome.decodeError => Except.error ChunkerError.unicodeDecodeError

/-- How `main` in `src/extract.py` starts a run (lines 158-161): if the chunk
list is empty it prints "No content to process." and returns; otherwise it
proceeds with the chunks. -/
inductive RunStart where
  | exitNoContent : RunStart
  | proceed : List (List Char) → RunStart

/-- The book-loading step of `main` in `src/extract.py`:
`book_chunks = read_book_chunks(BOOK_PATH, CHUNK_SIZE, CHUNK_OVERLAP);
if not book_chunks: print("No content to process. Exiting."); return`.
An exception escaping `read_book_chunks` also escapes `main`. -/
def mainStart (r : ReadOutcome) : Except ChunkerError RunStart :=
  match read_book_chunks r CHUNK_SIZE CHUNK_OVERLAP with
  | Except.error e => Except.error e
  | Except.ok [] => Except.ok RunStart.exitNoContent
  | Except.ok cs => Except.ok (RunStart.proceed cs)

/-- State of a persisted JSON document as seen by `load_data`: the file does
not exist; it exists but `json.load` raises `JSONDecodeError` or `IOError`
(the two exception classes `load_data` catches); it exists but its bytes are
not valid UTF-8, so `json.load` raises `UnicodeDecodeError` (a `ValueError`
that is neither a `JSONDecodeError` nor an `IOError`); or it parses to the
JSON value `j`. -/
inductive FileState where
  | missing : FileState
  | corrupt : FileState
  | undecodable : FileState
  | contains : JVal → FileState

/-- The exception that escapes `load_data` uncaught. -/
inductive LoaderError where
  | unicodeDecodeError : LoaderError
deriving DecidableEq

/-- `load_data` from `src/extract.py` (lines 82-93): a missing file returns
the default; a `json.JSONDecodeError` or `IOError` is caught and returns the
default; a `UnicodeDecodeError` raised by `json.load` on an invalid-UTF-8
document matches neither handler and propagates to the caller; otherwise,
when loading the graph document (`file_path == GRAPH_OUTPUT_PATH`) and the
parsed value is a dict with a `"graph"` key, the value under that key is
returned, and in every other case the parsed value itself is returned.
`isGraphPath` models the `file_path == GRAPH_OUTPUT_PATH` comparison. -/
def load_data (isGraphPath : Bool) (fs : FileState) (default : JVal) :
    Except LoaderError JVal :=
  match fs with
  | FileState.missing => Except.ok default
  | FileState.corrupt => Except.ok default
  | FileState.undecodable => Except.error LoaderError.unicodeDecodeError
  | FileState.contains j =>
      Except.ok
        (if isGraphPath then
          match j with
          | JVal.obj kvs =>
              match jlookup "graph" kvs with
              | some v => v
              | none => JVal.obj kvs
          | _ => j
        else j)

/-- `save_data` from `src/extract.py` (lines 95-103) for the graph document:
the triplet sequence is wrapped as `{"graph": data}` and written as one JSON
document; the resulting file state parses back to that object. -/
def save_data_graph (data : List JVal) : FileState :=
  FileState.contains (JVal.obj [("graph", JVal.arr data)])

/-- The relationship-type vocabulary of the Schema Registry: the `.value`
strings of `RelationshipLabel` in `src/graph_schema.py` (the enumerated set the
extraction prompt is built from). -/
def RELATIONSHIP_LABEL_VALUES : List String :=
  ["متولد_شد_در", "درگذشت_در", "شرکت_کرد_در", "رخ_داد_در", "شروع_شد_در",
   "پایان_یافت_در", "رخ_داد_در_تاریخ",
   "پدر_بود", "مادر_بود", "فرزند_بود", "همسر_بود", "خواهر_برادر_بود",
   "دروغ_گفت_به", "خیانت_کرد_به", "خبرچینی_کرد_علیه", "جنگید_علیه",
   "تظاهر_کرد_به", "صحبت_کرد_درباره", "مرتکب_شد", "قربانی_بود",
   "عضو_بود_در", "رئیس_بود", "منصب_داشت", "وابسته_بود_به", "جانشین_شد",
   "دادستان_بود_در", "متهم_بود_در", "قاضی_بود_در", "شاهد_بود_در",
   "وکیل_بود_برای", "پرونده_تشکیل_داد", "محکوم_شد_به", "تبرئه_شد_در",
   "مبتکر_نابودی", "همراهی_در_نابودی", "تحمیل_کرد", "ضدیت_داشت_با",
   "همراهی_کرد_با", "پرونده‌سازی_کرد_برای", "راه‌اندازی_کرد", "تهدید_کرد",
   "مشارکت_در_کشتار", "دور_زد", "برکنار_شد_به_خاطر", "حمایت_کرد_از",
   "مسئول_بود_در", "زمینه‌ساز_بود_برای", "رهبری_کرد", "متهم_کرد",
   "منجر_شد_به", "آشنایی_داشت_با", "همکاری_کرد_با", "آموزش_دید_از",
   "منصوب_کرد", "نماینده_بود_از", "مخالفت_کرد_با", "دفاع_کرد_از",
   "سرپوش_گذاشت_بر"]

/-- The `relation` field of a triplet record, when present and a string. -/
def relationOf (t : JVal) : Option String :=
  match t with
  | JVal.obj kvs =>
      match jlookup "relation" kvs with
      | some (JVal.str s) => some s
      | _ => none
  | _ => none

/-- The in-memory progress state of one `main` session in `src/extract.py`:
`total_chunks`, `processed_chunks_set`, `failed_chunks_set`, and the length of
`all_triplets` (which `main` stores back as `total_triplets_extracted`). -/
structure ProgressState where
  totalChunks : Nat
  processed : Finset Nat
  failed : Finset Nat
  totalTriplets : Nat

/-- The operator commands that select chunks to process (`src/extract.py`,
lines 187-210): an explicit index range `start-end`, `all`, or `retry`. -/
inductive Selection where
  | range : Nat → Nat → Selection
  | all : Selection
  | retry : Selection

/-- `chunks_to_process_indices` as computed by `main` in `src/extract.py`:
for `retry`, `sorted(list(failed_chunks_set))`; for `all`,
`[i for i in range(total_chunks) if i not in processed_chunks_set]`; for a
range `a-b`, Python computes `end_chunk = b + 1`, rejects the command (and
selects nothing) unless `0 <= a < b + 1 <= total_chunks`, and otherwise takes
`[i for i in range(a, b + 1) if i not in processed_chunks_set]`. -/
def selectIndices (st : ProgressState) : Selection → List Nat
  | Selection.range a b =>
      if a < b + 1 ∧ b + 1 ≤ st.totalChunks then
        (List.range' a (b + 1 - a)).filter (fun i => decide (i ∉ st.processed))
      else []
  | Selection.all =>
      (List.range st.totalChunks).filter (fun i => decide (i ∉ st.processed))
  | Selection.retry => st.failed.sort (fun i j => i ≤ j)

/-- One iteration of the interactive loop of `main` in `src/extract.py`
(lines 212-235) with the per-chunk model call abstracted as an oracle from
chunk index to `ModelOutcome` (the chunk text, and hence the prompt, is a
function of the index within a session, so a frozen model is a function of the
index).  If the selection is empty the code prints a message and `continue`s,
leaving all state untouched; otherwise the batch is processed and the sets are
reconciled: `processed ∪= succeeded`, `failed := (failed - succeeded) ∪
newly_failed`, and `total_triplets_extracted` becomes `len(all_triplets)` after
extending `all_triplets` with the new triplets. -/
def runEngine (oracle : Nat → ModelOutcome) (st : ProgressState)
    (sel : Selection) : ProgressState :=
  let idxs := selectIndices st sel
  if idxs = [] then st
  else
    let r := process_chunks (idxs.map (fun i => (i, oracle i)))
    { totalChunks := st.totalChunks
      processed := st.processed ∪ r.successfully_processed_indices.toFinset
      failed := (st.failed \ r.successfully_processed_indices.toFinset) ∪
                  r.failed_indices.toFinset
      totalTriplets := st.totalTriplets + r.newly_extracted_triplets.length }

/-- JSON string escaping as performed by `json.dumps(..., ensure_ascii=False)`
for the characters relevant here (quote, backslash and the common control
characters). -/
def jescapeChar (c : Char) : String :=
  if c = '"' then "\\\""
  else if c = '\\' then "\\\\"
  else if c = '\n' then "\\n"
  else if c = '\t' then "\\t"
  else if c = '\r' then "\\r"
  else String.singleton c

/-- Escape every character of a string for JSON output. -/
def jescape (s : String) : String :=
  String.join (s.toList.map jescapeChar)

mutual

/-- `json.dumps(value, ensure_ascii=False)` on the modelled JSON values
(Python's default separators are a comma-space between items and a
colon-space after keys). -/
def dumps : JVal → String
  | JVal.null => "null"
  | JVal.bool true => "true"
  | JVal.bool false => "false"
  | JVal.num n => toString n
  | JVal.str s => "\"" ++ jescape s ++ "\""
  | JVal.arr xs => "[" ++ dumpsList xs ++ "]"
  | JVal.obj kvs => "\x7b" ++ dumpsObj kvs ++ "\x7d"

/-- Serialize the items of a JSON array, comma-space separated. -/
def dumpsList : List JVal → String
  | [] => ""
  | [x] => dumps x
  | x :: y :: rest => dumps x ++ ", " ++ dumpsList (y :: rest)

/-- Serialize the members of a JSON object, comma-space separated. -/
def dumpsObj : List (String × JVal) → String
  | [] => ""
  | [(k, v)] => "\"" ++ jescape k ++ "\": " ++ dumps v
  | (k, v) :: p :: rest =>
      "\"" ++ jescape k ++ "\": " ++ dumps v ++ ", " ++ dumpsObj (p :: rest)

end

/-- The `isinstance(value, (dict, list))` test of `flatten_properties` in
`src/populate.py`. -/
def isContainer : JVal → Bool
  | JVal.obj _ => true
  | JVal.arr _ => true
  | _ => false

/-- The `isinstance(props, dict)` test in `flatten_properties`. -/
def isDict : JVal → Bool
  | JVal.obj _ => true
  | _ => false

/-- The member-wise transformation of `flatten_properties`
(`src/populate.py`, lines 41-46): each value that is a dict or a list becomes
`json.dumps(value, ensure_ascii=False)`, every other value is kept as is;
insertion order is preserved. -/
def flattenPairs (kvs : List (String × JVal)) : List (String × JVal) :=
  kvs.map (fun kv =>
    if isContainer kv.2 then (kv.1, JVal.str (dumps kv.2)) else kv)

/-- `flatten_properties` from `src/populate.py` (lines 33-47): a non-dict
argument is returned unchanged; for a dict, every dict-or-list value is
replaced by its JSON-string encoding and every other value passes through. -/
def flatten_properties : JVal → JVal
  | JVal.obj kvs => JVal.obj (flattenPairs kvs)
  | v => v

/-- The record handed to the Cypher batch for one relationship
(`record_data` in `populate_graph`, `src/populate.py` lines 112-119). -/
structure RecordData where
  head_name : String
  head_labels : List String
  tail_name : String
  tail_labels : List String
  rel_type : String
  rel_props : JVal

/-- Python's `str.strip()`: drop whitespace from both ends. -/
def pyStrip (s : String) : String :=
  String.mk (((s.toList.dropWhile Char.isWhitespace).reverse.dropWhile
    Char.isWhitespace).reverse)

/-- Python's `str.upper()` (on the character repertoire used here). -/
def pyUpper (s : String) : String :=
  String.mk (s.toList.map Char.toUpper)

/-- The validity test `isinstance(x, str) and x.strip()` applied to the five
string fields of a relationship record; returns the original (unstripped)
string on success, as the Python code does. -/
def pyTruthyStr (v : JVal) : Option String :=
  match v with
  | JVal.str s => if pyStrip s = "" then none else some s
  | _ => none

/-- `rel.get(key, default)` on a JSON object. -/
def jget (k : String) (v : JVal) (default : JVal) : JVal :=
  match v with
  | JVal.obj kvs => (jlookup k kvs).getD default
  | _ => default

/-- The per-relationship body of the loop in `populate_graph`
(`src/populate.py`, lines 90-120): require all six keys, require the five
string fields to be non-blank strings, then build `record_data` with the
upper-cased relation and the flattened properties; a record failing a check is
skipped (`none`).  `get_all_labels` traverses hierarchy tables defined in a
schema module not present in the sources, so it is abstracted as a
parameter. -/
def processRel (getAllLabels : String → List String) (rel : JVal) :
    Option RecordData :=
  match rel with
  | JVal.obj kvs =>
      if (["head", "head_label", "relation", "tail", "tail_label",
            "properties"]).all (fun k => (jlookup k kvs).isSome) then
        match pyTruthyStr ((jlookup "head_label" kvs).getD JVal.null),
              pyTruthyStr ((jlookup "tail_label" kvs).getD JVal.null),
              pyTruthyStr ((jlookup "head" kvs).getD JVal.null),
              pyTruthyStr ((jlookup "tail" kvs).getD JVal.null),
              pyTruthyStr ((jlookup "relation" kvs).getD JVal.null) with
        | some headLabel, some tailLabel, some headName, some tailName,
            some relation =>
            some { head_name := headName
                   head_labels := getAllLabels headLabel
                   tail_name := tailName
                   tail_labels := getAllLabels tailLabel
                   rel_type := pyUpper relation
                   rel_props :=
                     flatten_properties (jget "properties" rel (JVal.obj [])) }
        | _, _, _, _, _ => none
      else none
  | _ => none

/-- A concrete relationship record with one container-valued and one
scalar-valued property, used to exercise the loader's flattening. -/
def exRel : JVal :=
  JVal.obj [("head", JVal.str "h"), ("head_label", JVal.str "P"),
            ("relation", JVal.str "r"), ("tail", JVal.str "t"),
            ("tail_label", JVal.str "L"),
            ("properties",
              JVal.obj [("a", JVal.arr [JVal.num 1]), ("b", JVal.num 2)])]

/-- The record `populate_graph` builds from `exRel` (relation upper-cased,
container property encoded as a JSON string, scalar property untouched). -/
def exRd : RecordData :=
  { head_name := "h"
    head_labels := ["P"]
    tail_name := "t"
    tail_labels := ["L"]
    rel_type := pyUpper "r"
    rel_props :=
      JVal.obj [("a", JVal.str (dumps (JVal.arr [JVal.num 1]))),
                ("b", JVal.num 2)] }

/-- A triplet record whose `relation` is not in the Schema Registry's
enumerated set. -/
def bogusRecord : JVal :=
  JVal.obj [("head", JVal.str "الف"), ("relation", JVal.str "BOGUS"),
            ("tail", JVal.str "ب")]

/-- A decoded model response that passes the shape test of `process_chunks`
(a dict with a `"graph"` key holding a list) but whose single record carries
the out-of-schema relation above. -/
def bogusResponse : ModelOutcome :=
  ModelOutcome.json (JVal.obj [("graph", JVal.arr [bogusRecord])])

end KG

namespace KG

/-! ### Supporting lemmas about `process_chunks` -/

/-- Each input entry contributes its index to exactly one of the two returned
index lists: the counts of any index in `successfully_processed_indices` and
`failed_indices` sum to its count among the input indices. -/
theorem process_chunks_count (l : List (Nat × ModelOutcome)) (i : Nat) :
    (process_chunks l).successfully_processed_indices.count i +
      (process_chunks l).failed_indices.count i =
      (l.map Prod.fst).count i := by
  induction l with
  | nil => simp [process_chunks]
  | cons p rest ih =>
    obtain ⟨idx, o⟩ := p
    cases o with
    | exn =>
      simp only [process_chunks, List.map_cons, List.count_cons]
      omega
    | notJson =>
      simp only [process_chunks, List.map_cons, List.count_cons]
      omega
    | json d =>
      cases hg : graph_field d with
      | none =>
        simp only [process_chunks, hg, List.map_cons, List.count_cons]
        omega
      | some xs =>
        simp only [process_chunks, hg, List.map_cons, List.count_cons]
        omega

/-- An index appears among the outputs of `process_chunks` exactly when it
appears among the inputs. -/
theorem process_chunks_mem_iff (l : List (Nat × ModelOutcome)) (i : Nat) :
    (i ∈ (process_chunks l).successfully_processed_indices ∨
      i ∈ (process_chunks l).failed_indices) ↔ i ∈ l.map Prod.fst := by
  have h := process_chunks_count l i
  constructor
  · intro hc
    rcases hc with hc | hc <;>
    · have := List.count_pos_iff.mpr hc
      exact List.count_pos_iff.mp (by omega)
  · intro hm
    have hpos := List.count_pos_iff.mpr hm
    by_cases hp : 0 < (process_chunks l).successfully_processed_indices.count i
    · exact Or.inl (List.count_pos_iff.mp hp)
    · exact Or.inr (List.count_pos_iff.mp (by omega))

/-- Succeeded indices come from the input. -/
theorem process_chunks_succ_subset (l : List (Nat × ModelOutcome)) (i : Nat)
    (h : i ∈ (process_chunks l).successfully_processed_indices) :
    i ∈ l.map Prod.fst :=
  (process_chunks_mem_iff l i).mp (Or.inl h)

/-- Failed indices come from the input. -/
theorem process_chunks_failed_subset (l : List (Nat × ModelOutcome)) (i : Nat)
    (h : i ∈ (process_chunks l).failed_indices) :
    i ∈ l.map Prod.fst :=
  (process_chunks_mem_iff l i).mp (Or.inr h)

/-- When the input indices are distinct, no index is both succeeded and
failed. -/
theorem process_chunks_not_both (l : List (Nat × ModelOutcome))
    (hnd : (l.map Prod.fst).Nodup) (i : Nat)
    (hs : i ∈ (process_chunks l).successfully_processed_indices)
    (hf : i ∈ (process_chunks l).failed_indices) : False := by
  have h := process_chunks_count l i
  have h1 := List.count_pos_iff.mpr hs
  have h2 := List.count_pos_iff.mpr hf
  have h3 := List.nodup_iff_count_le_one.mp hnd i
  omega

/-- The accumulated triplets are exactly the concatenation, in input order, of
the `"graph"` lists of the chunks that pass the shape test; failing chunks
contribute nothing. -/
theorem process_chunks_triplets (l : List (Nat × ModelOutcome)) :
    (process_chunks l).newly_extracted_triplets =
      (l.filterMap succGraph).flatten := by
  induction l with
  | nil => simp [process_chunks]
  | cons p rest ih =>
    obtain ⟨idx, o⟩ := p
    cases o with
    | exn => simpa [process_chunks, succGraph] using ih
    | notJson => simpa [process_chunks, succGraph] using ih
    | json d =>
      cases hg : graph_field d with
      | none => simpa [process_chunks, succGraph, hg] using ih
      | some xs => simp [process_chunks, succGraph, hg, ih]

/-- A chunk whose outcome is a failure (exception, undecodable JSON, or wrong
shape) lands in `failed_indices`. -/
theorem process_chunks_failure_mem (l : List (Nat × ModelOutcome)) (i : Nat)
    (o : ModelOutcome) (hm : (i, o) ∈ l) (hf : isFailureOutcome o = true) :
    i ∈ (process_chunks l).failed_indices := by
  induction l with
  | nil => cases hm
  | cons p rest ih =>
    rcases List.mem_cons.mp hm with heq | hmem
    · cases heq
      cases o with
      | exn => simp [process_chunks]
      | notJson => simp [process_chunks]
      | json d =>
        cases hg : graph_field d with
        | none => simp [process_chunks, hg]
        | some xs => simp [isFailureOutcome, hg] at hf
    · obtain ⟨idx, o2⟩ := p
      have hi := ih hmem
      cases o2 with
      | exn => simp [process_chunks, hi]
      | notJson => simp [process_chunks, hi]
      | json d =>
        cases hg : graph_field d with
        | none => simp [process_chunks, hg, hi]
        | some xs => simp [process_chunks, hg, hi]

/-- Every record of every chunk that passes the shape test is merged into the
accumulated triplets. -/
theorem process_chunks_record_mem (l : List (Nat × ModelOutcome)) (i : Nat)
    (d : JVal) (xs : List JVal) (hm : (i, ModelOutcome.json d) ∈ l)
    (hg : graph_field d = some xs) (t : JVal) (ht : t ∈ xs) :
    t ∈ (process_chunks l).newly_extracted_triplets := by
  induction l with
  | nil => cases hm
  | cons p rest ih =>
    rcases List.mem_cons.mp hm with heq | hmem
    · cases heq
      simp [process_chunks, hg, ht]
    · obtain ⟨idx, o2⟩ := p
      have hi := ih hmem
      cases o2 with
      | exn => simp [process_chunks, hi]
      | notJson => simp [process_chunks, hi]
      | json d2 =>
        cases hg2 : graph_field d2 with
        | none => simp [process_chunks, hg2, hi]
        | some ys => simp [process_chunks, hg2, hi]

/-- A chunk whose decoded response passes the shape test is marked
succeeded. -/
theorem process_chunks_success_mem (l : List (Nat × ModelOutcome)) (i : Nat)
    (d : JVal) (xs : List JVal) (hm : (i, ModelOutcome.json d) ∈ l)
    (hg : graph_field d = some xs) :
    i ∈ (process_chunks l).successfully_processed_indices := by
  induction l with
  | nil => cases hm
  | cons p rest ih =>
    rcases List.mem_cons.mp hm with heq | hmem
    · cases heq
      simp [process_chunks, hg]
    · obtain ⟨idx, o2⟩ := p
      have hi := ih hmem
      cases o2 with
      | exn => simp [process_chunks, hi]
      | notJson => simp [process_chunks, hi]
      | json d2 =>
        cases hg2 : graph_field d2 with
        | none => simp [process_chunks, hg2, hi]
        | some ys => simp [process_chunks, hg2, hi]

/-! ### Claim C1 -/

/-- Claim C1 counterexample: `process_chunks` performs no per-record
validation of the `relation` field.  A well-shaped response containing a
record whose relation `"BOGUS"` is outside the Schema Registry's enumerated
set is accepted whole: the record is merged into `new_triplets` and the chunk
is marked succeeded, so the claim that such records are rejected before being
merged is false on the code. -/
theorem c1_relation_not_validated_cex :
    "BOGUS" ∉ RELATIONSHIP_LABEL_VALUES ∧
    relationOf bogusRecord = some "BOGUS" ∧
    bogusRecord ∈
      (process_chunks [(0, bogusResponse)]).newly_extracted_triplets ∧
    0 ∈ (process_chunks [(0, bogusResponse)]).successfully_processed_indices := by
  have hpc : process_chunks [(0, bogusResponse)] =
      ⟨[bogusRecord], [0], []⟩ := rfl
  refine ⟨by decide, rfl, ?_, ?_⟩
  · rw [hpc]
    exact List.mem_singleton.mpr rfl
  · rw [hpc]
    exact List.mem_singleton.mpr rfl

/-- Claim C1 (amended): the Extraction Engine accepts or rejects a model
response on its top-level shape alone (a decoded dict with a `"graph"` key
holding a list); every record of an accepted response — including records
whose `relation` is not in the Schema Registry's enumerated set — is merged
into `new_triplets`, and the chunk is marked succeeded. -/
theorem c1_amended_records_merged_without_validation
    (l : List (Nat × ModelOutcome)) (i : Nat) (d : JVal) (xs : List JVal)
    (hm : (i, ModelOutcome.json d) ∈ l) (hg : graph_field d = some xs) :
    i ∈ (process_chunks l).successfully_processed_indices ∧
    ∀ t ∈ xs, t ∈ (process_chunks l).newly_extracted_triplets :=
  ⟨process_chunks_success_mem l i d xs hm hg,
   fun t ht => process_chunks_record_mem l i d xs hm hg t ht⟩

/-- Claim C1 amended-theorem witness at the concrete out-of-schema record. -/
theorem c1_amended_witness :
    ((0, ModelOutcome.json (JVal.obj [("graph", JVal.arr [bogusRecord])])) ∈
        [(0, bogusResponse)]) ∧
    graph_field (JVal.obj [("graph", JVal.arr [bogusRecord])]) =
      some [bogusRecord] ∧
    (0 ∈ (process_chunks
            [(0, bogusResponse)]).successfully_processed_indices ∧
      ∀ t ∈ [bogusRecord],
        t ∈ (process_chunks [(0, bogusResponse)]).newly_extracted_triplets) :=
  ⟨List.mem_singleton.mpr rfl, rfl,
   c1_amended_records_merged_without_validation [(0, bogusResponse)] 0
     (JVal.obj [("graph", JVal.arr [bogusRecord])]) [bogusRecord]
     (List.mem_singleton.mpr rfl) rfl⟩

/-! ### Claim C3 -/

/-- Claim C3: for every batch and every chunk in it, any per-chunk failure
(model call raised, response not decodable JSON, or decoded value lacking a
`"graph"` key holding a list) puts that chunk's index into `failed_indices`
and contributes zero records to `new_triplets` (the accumulated triplets are
exactly the concatenation of the graph lists of the accepted chunks), and the
rest of the batch is still processed (every input index ends up in one of the
two output lists — the batch is never aborted). -/
theorem c3_per_chunk_failure_isolated (l : List (Nat × ModelOutcome)) :
    ((process_chunks l).newly_extracted_triplets =
        (l.filterMap succGraph).flatten) ∧
    (∀ i o, (i, o) ∈ l → isFailureOutcome o = true →
      i ∈ (process_chunks l).failed_indices ∧ succGraph (i, o) = none) ∧
    (∀ i o, (i, o) ∈ l →
      i ∈ (process_chunks l).successfully_processed_indices ∨
        i ∈ (process_chunks l).failed_indices) := by
  refine ⟨process_chunks_triplets l, ?_, ?_⟩
  · intro i o hm hf
    refine ⟨process_chunks_failure_mem l i o hm hf, ?_⟩
    cases o with
    | exn => rfl
    | notJson => rfl
    | json d =>
      simp only [isFailureOutcome, Option.isNone_iff_eq_none] at hf
      simp [succGraph, hf]
  · intro i o hm
    exact (process_chunks_mem_iff l i).mpr
      (List.mem_map.mpr ⟨(i, o), hm, rfl⟩)

/-- Claim C3 witness: a batch whose first chunk yields undecodable text and
whose second chunk is well-shaped; the failing chunk is marked failed and the
second chunk is still processed. -/
theorem c3_witness :
    (((0, ModelOutcome.notJson) ∈
        [(0, ModelOutcome.notJson), (1, bogusResponse)]) ∧
      isFailureOutcome ModelOutcome.notJson = true) ∧
    (0 ∈ (process_chunks
            [(0, ModelOutcome.notJson), (1, bogusResponse)]).failed_indices ∧
      succGraph (0, ModelOutcome.notJson) = none) :=
  ⟨⟨List.mem_cons_self _ _, rfl⟩,
   (c3_per_chunk_failure_isolated
       [(0, ModelOutcome.notJson), (1, bogusResponse)]).2.1 0
     ModelOutcome.notJson (List.mem_cons_self _ _) rfl⟩

/-! ### Claim C10 -/

/-- Claim C10: for every batch with distinct input indices, the input is
exactly partitioned by the result: each input index appears exactly once in
exactly one of `successfully_processed_indices` and `failed_indices` (their
counts sum to one), and no index outside the input appears in either list. -/
theorem c10_batch_partitions_input (l : List (Nat × ModelOutcome))
    (hnd : (l.map Prod.fst).Nodup) :
    (∀ i ∈ l.map Prod.fst,
      (process_chunks l).successfully_processed_indices.count i +
        (process_chunks l).failed_indices.count i = 1) ∧
    (∀ i, i ∉ l.map Prod.fst →
      i ∉ (process_chunks l).successfully_processed_indices ∧
        i ∉ (process_chunks l).failed_indices) := by
  constructor
  · intro i hi
    have h := process_chunks_count l i
    have h1 := List.count_pos_iff.mpr hi
    have h2 := List.nodup_iff_count_le_one.mp hnd i
    omega
  · intro i hi
    constructor <;> intro hmem
    · exact hi (process_chunks_succ_subset l i hmem)
    · exact hi (process_chunks_failed_subset l i hmem)

/-- Claim C10 witness at a concrete two-chunk batch. -/
theorem c10_batch_partitions_input_witness :
    (([(0, ModelOutcome.notJson),
        (1, bogusResponse)].map Prod.fst).Nodup ∧
      0 ∈ [(0, ModelOutcome.notJson), (1, bogusResponse)].map Prod.fst) ∧
    ((process_chunks [(0, ModelOutcome.notJson),
        (1, bogusResponse)]).successfully_processed_indices.count 0 +
      (process_chunks [(0, ModelOutcome.notJson),
        (1, bogusResponse)]).failed_indices.count 0 = 1) :=
  ⟨⟨by decide, by decide⟩,
   (c10_batch_partitions_input [(0, ModelOutcome.notJson), (1, bogusResponse)]
       (by decide)).1 0 (by decide)⟩

/-! ### Claim C4 -/

/-- The chunking loop, started at any offset, yields as its `i`-th element the
slice of length `chunk_size` starting at `start + i*(chunk_size-overlap)`,
for exactly those `i` whose start offset is inside the text. -/
theorem chunk_loop_get (text : List Char) (size overlap : Nat)
    (h : overlap < size) :
    ∀ (i start : Nat),
      (chunk_loop text size overlap start).get? i =
        if start + i * (size - overlap) < text.length then
          some ((text.drop (start + i * (size - overlap))).take size)
        else none := by
  intro i
  induction i with
  | zero =>
    intro start
    rw [chunk_loop]
    by_cases hs : start < text.length
    · simp [h, hs]
    · simp [hs]
  | succ n ih =>
    intro start
    rw [chunk_loop]
    by_cases hs : start < text.length
    · rw [dif_pos (And.intro h hs), List.get?_cons_succ, ih]
      have harith : start + (size - overlap) + n * (size - overlap) =
          start + (n + 1) * (size - overlap) := by
        rw [Nat.succ_mul]
        ring
      rw [harith]
    · rw [dif_neg (fun hc => hs hc.2)]
      have hnot : ¬ (start + (n + 1) * (size - overlap) < text.length) := by
        have h1 : text.length ≤ start := Nat.le_of_not_lt hs
        have h2 : start ≤ start + (n + 1) * (size - overlap) :=
          Nat.le_add_right _ _
        exact Nat.not_lt.mpr (le_trans h1 h2)
      simp [hnot]

/-- Claim C4: for every text and every `chunk_size > overlap ≥ 0`, chunk `i`
is `text[i*(chunk_size-overlap) : i*(chunk_size-overlap)+chunk_size]`,
produced exactly while the start offset is below the text length; for a text
of length 25000 with `chunk_size = 10000`, `overlap = 500` there are exactly
3 chunks, cut at start offsets 0, 9500 and 19000; and the chunker is a pure
function, so identical inputs yield the identical chunk sequence. -/
theorem c4_chunker_boundaries (text : List Char) (size overlap : Nat)
    (h : overlap < size) :
    (∀ i : Nat,
      (chunk_loop text size overlap 0).get? i =
        if i * (size - overlap) < text.length then
          some ((text.drop (i * (size - overlap))).take size)
        else none) ∧
    (read_book_chunks (ReadOutcome.ok text) size overlap =
      Except.ok (chunk_loop text size overlap 0)) ∧
    (text.length = 25000 → size = 10000 → overlap = 500 →
      (chunk_loop text size overlap 0).length = 3 ∧
      (chunk_loop text size overlap 0).get? 0 = some (text.take 10000) ∧
      (chunk_loop text size overlap 0).get? 1 =
        some ((text.drop 9500).take 10000) ∧
      (chunk_loop text size overlap 0).get? 2 =
        some ((text.drop 19000).take 10000)) ∧
    chunk_loop text size overlap 0 = chunk_loop text size overlap 0 := by
  have hgen := chunk_loop_get text size overlap h
  have hgen0 : ∀ i : Nat,
      (chunk_loop text size overlap 0).get? i =
        if i * (size - overlap) < text.length then
          some ((text.drop (i * (size - overlap))).take size)
        else none := by
    intro i
    have := hgen i 0
    simpa using this
  refine ⟨hgen0, rfl, ?_, rfl⟩
  intro hlen hsize hov
  subst hsize hov
  have h0 := hgen0 0
  have h1 := hgen0 1
  have h2 := hgen0 2
  have h3 := hgen0 3
  rw [hlen] at h0 h1 h2 h3
  rw [if_pos (by norm_num)] at h0 h1 h2
  rw [if_neg (by norm_num)] at h3
  rw [show (0 : Nat) * (10000 - 500) = 0 from by norm_num,
    List.drop_zero] at h0
  rw [show (1 : Nat) * (10000 - 500) = 9500 from by norm_num] at h1
  rw [show (2 : Nat) * (10000 - 500) = 19000 from by norm_num] at h2
  refine ⟨?_, h0, h1, h2⟩
  have hlen3 : (chunk_loop text 10000 500 0).length ≤ 3 :=
    List.get?_eq_none.mp h3
  have hlt : 2 < (chunk_loop text 10000 500 0).length := by
    rcases List.get?_eq_some.mp h2 with ⟨hh, _⟩
    exact hh
  omega

/-- Claim C4 witness at a concrete text of length 25000. -/
theorem c4_chunker_boundaries_witness :
    500 < 10000 ∧ (List.replicate 25000 'a').length = 25000 ∧
    ((chunk_loop (List.replicate 25000 'a') 10000 500 0).length = 3 ∧
      (chunk_loop (List.replicate 25000 'a') 10000 500 0).get? 0 =
        some ((List.replicate 25000 'a').take 10000) ∧
      (chunk_loop (List.replicate 25000 'a') 10000 500 0).get? 1 =
        some (((List.replicate 25000 'a').drop 9500).take 10000) ∧
      (chunk_loop (List.replicate 25000 'a') 10000 500 0).get? 2 =
        some (((List.replicate 25000 'a').drop 19000).take 10000)) :=
  ⟨by norm_num, by rw [List.length_replicate],
   (c4_chunker_boundaries (List.replicate 25000 'a') 10000 500
       (by norm_num)).2.2.1 (by rw [List.length_replicate]) rfl rfl⟩

/-! ### Claim C6 -/

/-- Claim C6: saving the Graph Accumulator document (which wraps the triplet
sequence under the fixed key `"graph"`) and loading it back reproduces the
same sequence in the same order, and loading a legacy document that stores
the bare sequence without the wrapper also returns that sequence. -/
theorem c6_graph_roundtrip (ts : List JVal) :
    load_data true (save_data_graph ts) (JVal.arr []) =
      Except.ok (JVal.arr ts) ∧
    load_data true (FileState.contains (JVal.arr ts)) (JVal.arr []) =
      Except.ok (JVal.arr ts) :=
  ⟨rfl, rfl⟩

/-! ### Claim C7 -/

/-- Claim C7 counterexample: `load_data` catches only `json.JSONDecodeError`
and `IOError`; a stored document whose bytes are not valid UTF-8 makes
`json.load` raise `UnicodeDecodeError`, which matches neither handler and
propagates to the caller instead of degrading to the supplied default — so
the claim that document-load corruption never raises an error to the caller
is false on the code. -/
theorem c7_undecodable_raises_cex :
    load_data false FileState.undecodable (JVal.obj []) =
      Except.error LoaderError.unicodeDecodeError ∧
    load_data false FileState.undecodable (JVal.obj []) ≠
      Except.ok (JVal.obj []) :=
  ⟨rfl, fun hq => Except.noConfusion hq⟩

/-- Claim C7 (amended): loading returns the zero-valued/default state when no
prior file exists and when `json.load` fails with a `JSONDecodeError` or an
`IOError` (those corruptions degrade to the default without raising, for the
progress document and the graph document alike); but a stored document whose
bytes cannot be decoded as UTF-8 raises `UnicodeDecodeError` out of
`load_data` to the caller. -/
theorem c7_amended_load_default_on_caught (isGraphPath : Bool)
    (default : JVal) :
    load_data isGraphPath FileState.missing default = Except.ok default ∧
    load_data isGraphPath FileState.corrupt default = Except.ok default ∧
    load_data isGraphPath FileState.undecodable default =
      Except.error LoaderError.unicodeDecodeError := by
  cases isGraphPath <;> exact ⟨rfl, rfl, rfl⟩

/-! ### Claim C8 -/

/-- Claim C8 counterexample: `read_book_chunks` only catches
`FileNotFoundError`; a source file whose contents cannot be decoded raises
out of the Chunker instead of yielding an empty sequence, so the claim that
every unreadable-or-undecodable source yields an empty sequence is false on
the code. -/
theorem c8_decode_error_raises_cex :
    read_book_chunks ReadOutcome.decodeError 10000 500 =
      Except.error ChunkerError.unicodeDecodeError ∧
    read_book_chunks ReadOutcome.decodeError 10000 500 ≠ Except.ok [] :=
  ⟨rfl, fun hq => Except.noConfusion hq⟩

/-- Claim C8 (amended): when the source file does not exist, the Chunker
returns the empty sequence rather than raising, and the caller (`main`)
treats the empty sequence as "nothing to do" and exits the run; a file whose
contents cannot be decoded instead raises out of the Chunker. -/
theorem c8_amended_notfound_empty (size overlap : Nat) :
    read_book_chunks ReadOutcome.notFound size overlap = Except.ok [] ∧
    mainStart ReadOutcome.notFound = Except.ok RunStart.exitNoContent :=
  ⟨rfl, rfl⟩

/-! ### Supporting lemmas about chunk selection and the run loop -/

/-- Every selection policy yields a list of distinct indices. -/
theorem selectIndices_nodup (st : ProgressState) (sel : Selection) :
    (selectIndices st sel).Nodup := by
  cases sel with
  | range a b =>
    simp only [selectIndices]
    split
    · exact List.Nodup.filter _ (List.nodup_range' _ _)
    · exact List.nodup_nil
  | all =>
    exact List.Nodup.filter _ (List.nodup_range _)
  | retry => exact Finset.sort_nodup _ _

/-- Range selection only picks indices outside `processed`. -/
theorem selectIndices_range_not_processed (st : ProgressState) (a b i : Nat)
    (h : i ∈ selectIndices st (Selection.range a b)) : i ∉ st.processed := by
  simp only [selectIndices] at h
  split at h
  · have := (List.mem_filter.mp h).2
    simpa using this
  · cases h

/-- The `all` selection only picks indices outside `processed`. -/
theorem selectIndices_all_not_processed (st : ProgressState) (i : Nat)
    (h : i ∈ selectIndices st Selection.all) : i ∉ st.processed := by
  simp only [selectIndices] at h
  have := (List.mem_filter.mp h).2
  simpa using this

/-- The `retry` selection is exactly the failed set. -/
theorem selectIndices_retry_mem (st : ProgressState) (i : Nat) :
    i ∈ selectIndices st Selection.retry ↔ i ∈ st.failed := by
  simp only [selectIndices]
  exact Finset.mem_sort _

/-- Under the invariant `processed ∩ failed = ∅`, every selection policy
yields indices outside `processed`. -/
theorem selectIndices_not_processed (st : ProgressState)
    (hdisj : Disjoint st.processed st.failed) (sel : Selection) (i : Nat)
    (h : i ∈ selectIndices st sel) : i ∉ st.processed := by
  cases sel with
  | range a b => exact selectIndices_range_not_processed st a b i h
  | all => exact selectIndices_all_not_processed st i h
  | retry =>
    have hf : i ∈ st.failed := (selectIndices_retry_mem st i).mp h
    exact fun hp => (Finset.disjoint_left.mp hdisj hp) hf

/-- Every selection policy yields its indices in ascending order. -/
theorem selectIndices_sorted (st : ProgressState) (sel : Selection) :
    List.Sorted (fun i j => i ≤ j) (selectIndices st sel) := by
  cases sel with
  | range a b =>
    simp only [selectIndices]
    split
    · exact List.Pairwise.filter _
        ((List.pairwise_lt_range' _ _).imp fun h => le_of_lt h)
    · exact List.sorted_nil
  | all =>
    exact List.Pairwise.filter _
      ((List.pairwise_lt_range _).imp fun h => le_of_lt h)
  | retry => exact Finset.sort_sorted _ _

/-- The index lists produced by a run come from the selected indices. -/
theorem run_batch_fst (st : ProgressState) (oracle : Nat → ModelOutcome)
    (sel : Selection) :
    ((selectIndices st sel).map (fun i => (i, oracle i))).map Prod.fst =
      selectIndices st sel := by
  rw [List.map_map]
  exact List.map_id _

/-! ### Claim C2 -/

/-- Claim C2: starting from a state whose processed and failed sets are
disjoint, one run of the engine (select, process, then reconcile with
`processed := processed ∪ succeeded` and
`failed := (failed - succeeded) ∪ newly_failed`) leaves the processed and
failed sets disjoint, whichever selection policy was used; and a chunk that
is currently failed and succeeds on a retry run afterwards belongs to
`processed` and not to `failed`. -/
theorem c2_reconcile_disjoint (oracle : Nat → ModelOutcome)
    (st : ProgressState) (sel : Selection)
    (hdisj : Disjoint st.processed st.failed) :
    Disjoint (runEngine oracle st sel).processed
      (runEngine oracle st sel).failed ∧
    (∀ i ∈ st.failed,
      i ∈ (process_chunks ((selectIndices st Selection.retry).map
            (fun k => (k, oracle k)))).successfully_processed_indices →
      i ∈ (runEngine oracle st Selection.retry).processed ∧
      i ∉ (runEngine oracle st Selection.retry).failed) := by
  have key : ∀ s : Selection,
      Disjoint (runEngine oracle st s).processed
        (runEngine oracle st s).failed := by
    intro s
    by_cases he : selectIndices st s = []
    · simp only [runEngine, if_pos he]
      exact hdisj
    · have hnd : (((selectIndices st s).map
          (fun i => (i, oracle i))).map Prod.fst).Nodup := by
        rw [run_batch_fst]
        exact selectIndices_nodup st s
      simp only [runEngine, if_neg he]
      rw [Finset.disjoint_left]
      intro x hx1 hx2
      rcases Finset.mem_union.mp hx2 with hx2 | hx2
      · have hxf : x ∈ st.failed := (Finset.mem_sdiff.mp hx2).1
        have hxnS := (Finset.mem_sdiff.mp hx2).2
        rcases Finset.mem_union.mp hx1 with hx1 | hx1
        · exact (Finset.disjoint_left.mp hdisj hx1) hxf
        · exact hxnS hx1
      · have hxF := List.mem_toFinset.mp hx2
        have hxsel : x ∈ selectIndices st s := by
          have := process_chunks_failed_subset _ x hxF
          rwa [run_batch_fst] at this
        have hxnp : x ∉ st.processed :=
          selectIndices_not_processed st hdisj s x hxsel
        rcases Finset.mem_union.mp hx1 with hx1 | hx1
        · exact hxnp hx1
        · exact process_chunks_not_both _ hnd x
            (List.mem_toFinset.mp hx1) hxF
  refine ⟨key sel, ?_⟩
  intro i hif hisucc
  by_cases he : selectIndices st Selection.retry = []
  · rw [he] at hisucc
    simp [process_chunks] at hisucc
  · have hnd : (((selectIndices st Selection.retry).map
        (fun i => (i, oracle i))).map Prod.fst).Nodup := by
      rw [run_batch_fst]
      exact selectIndices_nodup st Selection.retry
    simp only [runEngine, if_neg he]
    constructor
    · exact Finset.mem_union.mpr (Or.inr (List.mem_toFinset.mpr hisucc))
    · intro hx
      rcases Finset.mem_union.mp hx with hx | hx
      · exact (Finset.mem_sdiff.mp hx).2 (List.mem_toFinset.mpr hisucc)
      · exact process_chunks_not_both _ hnd i hisucc
          (List.mem_toFinset.mp hx)

/-- Claim C2 witness: chunk 7 is failed, the retry run succeeds on it, and
afterwards 7 is processed and no longer failed. -/
theorem c2_reconcile_disjoint_witness :
    Disjoint (ProgressState.mk 10 ∅ {7} 0).processed
      (ProgressState.mk 10 ∅ {7} 0).failed ∧
    7 ∈ (ProgressState.mk 10 ∅ {7} 0).failed ∧
    7 ∈ (process_chunks ((selectIndices (ProgressState.mk 10 ∅ {7} 0)
          Selection.retry).map
          (fun k => (k, (fun _ => bogusResponse) k)))).successfully_processed_indices ∧
    (7 ∈ (runEngine (fun _ => bogusResponse) (ProgressState.mk 10 ∅ {7} 0)
          Selection.retry).processed ∧
      7 ∉ (runEngine (fun _ => bogusResponse) (ProgressState.mk 10 ∅ {7} 0)
          Selection.retry).failed) := by
  have hdisj : Disjoint (ProgressState.mk 10 ∅ {7} 0).processed
      (ProgressState.mk 10 ∅ {7} 0).failed := by
    simp
  have hsel : selectIndices (ProgressState.mk 10 ∅ {7} 0) Selection.retry =
      [7] := by
    simp only [selectIndices]
    exact Finset.sort_singleton _ _
  have hmem : (7 : Nat) ∈ (ProgressState.mk 10 ∅ {7} 0).failed := by
    simp
  have hsucc : 7 ∈ (process_chunks ((selectIndices
      (ProgressState.mk 10 ∅ {7} 0) Selection.retry).map
      (fun k => (k, (fun _ => bogusResponse) k)))).successfully_processed_indices := by
    rw [hsel]
    exact List.mem_singleton.mpr rfl
  exact ⟨hdisj, hmem, hsucc,
    (c2_reconcile_disjoint (fun _ => bogusResponse)
        (ProgressState.mk 10 ∅ {7} 0) Selection.retry hdisj).2 7 hmem hsucc⟩

/-! ### Claim C5 -/

/-- Claim C5: the range and `all` selection policies yield only indices
outside `processed_chunks`; the retry policy yields exactly the current
failed set; every policy produces its indices in ascending order; and running
the engine over an index range that is already fully processed selects no
chunks and leaves the whole state — in particular `processed_chunks` and
`total_triplets_extracted` — unchanged. -/
theorem c5_selection_policies_idempotent (oracle : Nat → ModelOutcome)
    (st : ProgressState) (a b : Nat) :
    (∀ i ∈ selectIndices st (Selection.range a b), i ∉ st.processed) ∧
    (∀ i ∈ selectIndices st Selection.all, i ∉ st.processed) ∧
    (∀ i, i ∈ selectIndices st Selection.retry ↔ i ∈ st.failed) ∧
    (∀ s : Selection, List.Sorted (fun i j => i ≤ j) (selectIndices st s)) ∧
    ((∀ i, a ≤ i → i ≤ b → i ∈ st.processed) →
      runEngine oracle st (Selection.range a b) = st) := by
  refine ⟨fun i h => selectIndices_range_not_processed st a b i h,
    fun i h => selectIndices_all_not_processed st i h,
    fun i => selectIndices_retry_mem st i,
    fun s => selectIndices_sorted st s, ?_⟩
  intro hall
  have hempty : selectIndices st (Selection.range a b) = [] := by
    simp only [selectIndices]
    split
    next hguard =>
      rw [List.filter_eq_nil_iff]
      intro i hi
      have hm := List.mem_range'_1.mp hi
      have hib : i ≤ b := by omega
      have hip : i ∈ st.processed := hall i hm.1 hib
      simp [hip]
    next => rfl
  simp only [runEngine, if_pos hempty]

/-- Claim C5 witness: a state whose three chunks are all processed; the run
over the range `0-2` selects nothing and changes nothing. -/
theorem c5_selection_policies_idempotent_witness :
    (∀ i, 0 ≤ i → i ≤ 2 →
      i ∈ (ProgressState.mk 3 {0, 1, 2} ∅ 5).processed) ∧
    runEngine (fun _ => ModelOutcome.notJson)
        (ProgressState.mk 3 {0, 1, 2} ∅ 5) (Selection.range 0 2) =
      ProgressState.mk 3 {0, 1, 2} ∅ 5 := by
  have hall : ∀ i, 0 ≤ i → i ≤ 2 →
      i ∈ (ProgressState.mk 3 {0, 1, 2} ∅ 5).processed := by
    intro i h0 h2
    show i ∈ ({0, 1, 2} : Finset Nat)
    simp only [Finset.mem_insert, Finset.mem_singleton]
    omega
  exact ⟨hall,
    (c5_selection_policies_idempotent (fun _ => ModelOutcome.notJson)
        (ProgressState.mk 3 {0, 1, 2} ∅ 5) 0 2).2.2.2.2 hall⟩

/-! ### Claim C9 -/

/-- Claim C9: for every relationship record handed to the graph-database
loader, every property value that is a dict or a list is encoded as a JSON
string before submission while scalar values pass through unchanged: a
non-dict `properties` argument is returned as is; inside a dict, each
container value `v` becomes the string `dumps v` under its key and each
scalar value is kept; and the record built by `populate_graph` carries
exactly the flattened properties in `rel_props`. -/
theorem c9_flatten_properties_spec :
    (∀ v, isDict v = false → flatten_properties v = v) ∧
    (∀ (kvs : List (String × JVal)) (k : String) (v : JVal),
      (k, v) ∈ kvs →
      (isContainer v = true → (k, JVal.str (dumps v)) ∈ flattenPairs kvs) ∧
      (isContainer v = false → (k, v) ∈ flattenPairs kvs)) ∧
    (∀ (f : String → List String) (rel : JVal) (rd : RecordData),
      processRel f rel = some rd →
      rd.rel_props = flatten_properties (jget "properties" rel (JVal.obj []))) := by
  refine ⟨?_, ?_, ?_⟩
  · intro v hv
    cases v <;> simp_all [isDict, flatten_properties]
  · intro kvs k v hm
    constructor <;> intro hc
    · have hmm := List.mem_map_of_mem
        (fun kv : String × JVal =>
          if isContainer kv.2 then (kv.1, JVal.str (dumps kv.2)) else kv) hm
      simpa [flattenPairs, hc] using hmm
    · have hmm := List.mem_map_of_mem
        (fun kv : String × JVal =>
          if isContainer kv.2 then (kv.1, JVal.str (dumps kv.2)) else kv) hm
      simpa [flattenPairs, hc] using hmm
  · intro f rel rd h
    cases rel with
    | obj kvs =>
        simp only [processRel] at h
        split at h
        · split at h
          · have hrd := Option.some.inj h
            rw [← hrd]
          · cases h
        · cases h
    | null => cases h
    | bool b => cases h
    | num n => cases h
    | str s => cases h
    | arr xs => cases h

/-- Claim C9 witness at a concrete record with one container-valued and one
scalar-valued property. -/
theorem c9_flatten_properties_spec_witness :
    (isDict (JVal.num 3) = false ∧
      flatten_properties (JVal.num 3) = JVal.num 3) ∧
    ((("a", JVal.arr [JVal.num 1]) ∈
        [("a", JVal.arr [JVal.num 1]), ("b", JVal.num 2)] ∧
      isContainer (JVal.arr [JVal.num 1]) = true ∧
      ("a", JVal.str (dumps (JVal.arr [JVal.num 1]))) ∈
        flattenPairs [("a", JVal.arr [JVal.num 1]), ("b", JVal.num 2)]) ∧
      (("b", JVal.num 2) ∈
        [("a", JVal.arr [JVal.num 1]), ("b", JVal.num 2)] ∧
      isContainer (JVal.num 2) = false ∧
      ("b", JVal.num 2) ∈
        flattenPairs [("a", JVal.arr [JVal.num 1]), ("b", JVal.num 2)])) ∧
    (processRel (fun s => [s]) exRel = some exRd ∧
      exRd.rel_props =
        flatten_properties (jget "properties" exRel (JVal.obj []))) :=
  ⟨⟨rfl, c9_flatten_properties_spec.1 (JVal.num 3) rfl⟩,
   ⟨⟨List.mem_cons_self _ _, rfl,
     (c9_flatten_properties_spec.2.1
         [("a", JVal.arr [JVal.num 1]), ("b", JVal.num 2)] "a"
         (JVal.arr [JVal.num 1]) (List.mem_cons_self _ _)).1 rfl⟩,
    ⟨List.mem_cons_of_mem _ (List.mem_cons_self _ _), rfl,
     (c9_flatten_properties_spec.2.1
         [("a", JVal.arr [JVal.num 1]), ("b", JVal.num 2)] "b"
         (JVal.num 2)
         (List.mem_cons_of_mem _ (List.mem_cons_self _ _))).2 rfl⟩⟩,
   ⟨rfl, c9_flatten_properties_spec.2.2 (fun s => [s]) exRel exRd rfl⟩⟩

end KG
